import Mathlib

/-!
Shallow embedding of `src/oemof/solph/linear_constraints.py`: the constraint
generators of the oemof solph layer.  Each Python generator is translated into
a Lean function from the data it reads (entity records, the model index
dictionaries `I`/`O`, the number of timesteps) to a record describing exactly
what the generator emits: variable fixings, bound settings, and indexed
families of linear constraints.  Python exceptions (the empty-subset guards,
`TypeError` from indexing a list with a string) are modelled with
`Except String`.  Linear pyomo expressions are modelled by `AffExpr`, a list
of coefficient/variable terms plus a constant, with a semantic evaluation
under a variable assignment.
-/

set_option linter.unusedVariables false

namespace Oemof

/-- Unique identifier of an entity (the `uid` attribute). -/
abbrev Uid := String

/-- Decision variables of the optimization model: the flow variables
`model.w[e1, e2, t]` together with the auxiliary block variables used by
the generators in `linear_constraints.py`. -/
inductive Var where
  | w (src : Uid) (dst : Uid) (t : Nat)
  | cap (e : Uid) (t : Nat)
  | add_cap (e : Uid)
  | add_out (e : Uid)
  | curtailment_var (e : Uid) (t : Nat)
  | grad_pos_var (e : Uid) (t : Nat)
  | grad_neg_var (e : Uid) (t : Nat)
  | excess_slack (e : Uid) (t : Nat)
  | shortage_slack (e : Uid) (t : Nat)
deriving DecidableEq, Repr

/-- A linear (affine) pyomo expression: a list of coefficient/variable
terms plus a constant.  A Python expression that "degenerates to a plain
number" corresponds to an empty `terms` list. -/
structure AffExpr where
  terms : List (ℚ × Var)
  const : ℚ
deriving DecidableEq, Repr

namespace AffExpr

/-- The expression that is the plain number `q`. -/
def ofConst (q : ℚ) : AffExpr := ⟨[], q⟩

/-- The expression that is a single variable with coefficient 1. -/
def ofVar (v : Var) : AffExpr := ⟨[(1, v)], 0⟩

/-- A pure linear combination of variables (no constant part). -/
def termsOf (l : List (ℚ × Var)) : AffExpr := ⟨l, 0⟩

/-- Addition of affine expressions (pyomo `+`). -/
def add (a b : AffExpr) : AffExpr := ⟨a.terms ++ b.terms, a.const + b.const⟩

/-- Value of an affine expression under an assignment of the variables. -/
def eval (σ : Var → ℚ) (a : AffExpr) : ℚ :=
  a.const + (a.terms.map (fun cv => cv.1 * σ cv.2)).sum

end AffExpr

/-- A single linear constraint: equality or less-or-equal between two
affine expressions. -/
inductive Constr where
  | eq (lhs rhs : AffExpr)
  | le (lhs rhs : AffExpr)
deriving DecidableEq, Repr

/-- Satisfaction of a constraint by an assignment. -/
def Constr.holds (σ : Var → ℚ) : Constr → Prop
  | .eq a b => a.eval σ = b.eval σ
  | .le a b => a.eval σ ≤ b.eval σ

instance (σ : Var → ℚ) : (c : Constr) → Decidable (c.holds σ)
  | .eq a b => inferInstanceAs (Decidable (a.eval σ = b.eval σ))
  | .le a b => inferInstanceAs (Decidable (a.eval σ ≤ b.eval σ))

/-! ### Python dictionary semantics

Python dict comprehensions such as `{obj.uid: obj.eta for obj in objs}`
insert bindings in iteration order; a repeated key keeps its original
position but is overwritten with the later value.  Lookups raise
`KeyError` on a missing key, modelled by `Option`. -/

/-- Insert a binding into an association list with Python dict semantics:
an existing key keeps its position and gets the new value, a new key is
appended at the end. -/
def pyInsert {K V : Type} [DecidableEq K] (k : K) (v : V) :
    List (K × V) → List (K × V)
  | [] => [(k, v)]
  | kv :: rest =>
      if kv.1 = k then (k, v) :: rest else kv :: pyInsert k v rest

/-- Build a Python dict from a list of key/value pairs (a dict
comprehension evaluated in list order). -/
def pyDict {K V : Type} [DecidableEq K] (kvs : List (K × V)) : List (K × V) :=
  kvs.foldl (fun d kv => pyInsert kv.1 kv.2 d) []

/-- Dict lookup (`d[k]`); `none` models a `KeyError`. -/
def pyGet {K V : Type} [DecidableEq K] (d : List (K × V)) (k : K) : Option V :=
  (d.find? (fun kv => decide (kv.1 = k))).map Prod.snd

/-- Dict lookup with a default value; within the generators below it is
only ever applied to keys that are present in the dict (the constraint
rules are evaluated only on the index sets built from the same objects). -/
def pyGetD {K V : Type} [DecidableEq K] [Inhabited V]
    (d : List (K × V)) (k : K) : V :=
  (pyGet d k).getD default

/-- True when an `Except` computation raised. -/
def isErr {ε α : Type} : Except ε α → Bool
  | .error _ => true
  | .ok _ => false

/-! ### Entity records

Each record carries exactly the attributes that the generators of
`linear_constraints.py` read from the corresponding Python objects.
List-valued attributes indexed with `[i]` in Python are modelled with
`List.getD`; the default is never reached on the index sets the
generators actually use (Python would raise `IndexError` there). -/

/-- A `cp.Transport` component of `model.components` as read by
`add_bus_balance`: `inputs[0].uid`, `outputs[0].uid`, `eta[0]` and
`out_max[0]`. -/
structure Transport where
  input0 : Uid
  output0 : Uid
  eta0 : ℚ
  out_max0 : ℚ

/-- A bus object from `block.objs` of `add_bus_balance`: its `uid`, its
`balanced` flag, and for each entity of its `inputs`/`outputs` lists the
uid together with whether that entity is a `cp.Transport` instance
(the generator only reads `i.uid` and `isinstance(i, cp.Transport)`). -/
structure BusObj where
  uid : Uid
  balanced : Bool
  inputs : List (Uid × Bool)
  outputs : List (Uid × Bool)

/-- What `add_bus_balance` emits: the upper-bound settings on the
transport flow variables, the index set `uids` of the balance family,
and the balance constraint for every index `(e, t)`. -/
structure BusBalanceOut where
  ub_actions : List (Var × ℚ)
  balance_index : List Uid
  balance : Uid → Nat → Constr

/-- Embedding of `add_bus_balance` (src/oemof/solph/linear_constraints.py,
lines 61-124).  `transports` stands for the `cp.Transport` instances of
`model.components` (the only components the function reads). -/
def add_bus_balance (T : Nat) (transports : List Transport)
    (objs : List BusObj) (excess_uids shortage_uids : List Uid) :
    Except String BusBalanceOut :=
  if objs.isEmpty then
    .error "Failed to create busbalance. No busobjects defined!"
  else
    let etas := pyDict (transports.map fun tr =>
      ((tr.input0, tr.output0), tr.eta0))
    let out_max := pyDict (transports.map fun tr =>
      ((tr.input0, tr.output0), tr.out_max0))
    let tuples := transports.map fun tr => (tr.input0, tr.output0)
    let ubs := (tuples.map fun p => (List.range T).map fun t =>
      (Var.w p.1 p.2 t, pyGetD out_max p)).flatten
    let balanced_objs := objs.filter fun b => b.balanced
    let uids := balanced_objs.map fun b => b.uid
    let Idict := pyDict (balanced_objs.map fun b =>
      (b.uid, (b.inputs.filter fun p => !p.2).map Prod.fst))
    let Odict := pyDict (balanced_objs.map fun b =>
      (b.uid, (b.outputs.filter fun p => !p.2).map Prod.fst))
    let rule : Uid → Nat → Constr := fun e t =>
      let lhs := AffExpr.termsOf
        ((pyGetD Idict e).map fun i => ((1 : ℚ), Var.w i e t))
      let lhs := lhs.add (AffExpr.termsOf
        ((etas.filter fun kv => decide (kv.1.2 = e)).map fun kv =>
          (kv.2, Var.w kv.1.1 e t)))
      let rhs := AffExpr.termsOf
        ((pyGetD Odict e).map fun o => ((1 : ℚ), Var.w e o t))
      let rhs := rhs.add (AffExpr.termsOf
        ((etas.filter fun kv => decide (kv.1.1 = e)).map fun kv =>
          ((1 : ℚ), Var.w e kv.1.2 t)))
      let rhs := if e ∈ excess_uids then
        rhs.add (AffExpr.ofVar (Var.excess_slack e t)) else rhs
      let lhs := if e ∈ shortage_uids then
        lhs.add (AffExpr.ofVar (Var.shortage_slack e t)) else lhs
      Constr.eq lhs rhs
    .ok { ub_actions := ubs, balance_index := uids, balance := rule }

/-- A transformer object read by `add_simple_io_relation` and
`add_simple_chp_relation`: `uid` and the efficiency list `eta`. -/
structure EtaObj where
  uid : Uid
  eta : List ℚ

/-- A CHP object read by `add_eta_total_chp_relation`: `uid` and
`eta_total`. -/
structure EtaTotalObj where
  uid : Uid
  eta_total : ℚ

/-- An extraction CHP object read by
`add_simple_extraction_chp_relation`. -/
structure ExtractionObj where
  uid : Uid
  out_max : List ℚ
  beta : ℚ
  sigma : ℚ
  eta_el_cond : ℚ

/-- Output of a generator that builds exactly one constraint family over
`block.indexset` (the uids of `block.objs` crossed with the timesteps). -/
structure RuleFamilyOut where
  index_uids : List Uid
  rule : Uid → Nat → Constr

/-- Embedding of `add_simple_io_relation` (lines 128-167).  `I` and `O`
are the model dictionaries of input/output uids described in the module
docstring. -/
def add_simple_io_relation (T : Nat) (I : Uid → Uid) (O : Uid → List Uid)
    (objs : List EtaObj) (idx : Nat) : Except String RuleFamilyOut :=
  if objs.isEmpty then
    .error "No objects defined. Please specify objects for which the constraints should be build"
  else
    let eta := pyDict (objs.map fun o => (o.uid, o.eta))
    let rule : Uid → Nat → Constr := fun e t =>
      Constr.eq
        (AffExpr.termsOf
          [((pyGetD eta e).getD idx 0, Var.w (I e) e t),
           (-1, Var.w e ((O e).getD idx "") t)])
        (AffExpr.ofConst 0)
    .ok { index_uids := objs.map fun o => o.uid, rule := rule }

/-- Embedding of `add_eta_total_chp_relation` (lines 169-208). -/
def add_eta_total_chp_relation (T : Nat) (I : Uid → Uid)
    (O : Uid → List Uid) (objs : List EtaTotalObj) :
    Except String RuleFamilyOut :=
  if objs.isEmpty then
    .error "No objects defined. Please specify objects for which the constraints should be build"
  else
    let eta_total := pyDict (objs.map fun o => (o.uid, o.eta_total))
    let rule : Uid → Nat → Constr := fun e t =>
      Constr.eq
        (AffExpr.termsOf [(pyGetD eta_total e, Var.w (I e) e t)])
        (AffExpr.termsOf
          [((1 : ℚ), Var.w e ((O e).getD 0 "") t),
           ((1 : ℚ), Var.w e ((O e).getD 1 "") t)])
    .ok { index_uids := objs.map fun o => o.uid, rule := rule }

/-- Embedding of `add_simple_chp_relation` (lines 211-255). -/
def add_simple_chp_relation (T : Nat) (I : Uid → Uid)
    (O : Uid → List Uid) (objs : List EtaObj) :
    Except String RuleFamilyOut :=
  if objs.isEmpty then
    .error "No objects defined. Please specify objects for which backpressure chp constraints should be set."
  else
    let eta := pyDict (objs.map fun o => (o.uid, o.eta))
    let rule : Uid → Nat → Constr := fun e t =>
      Constr.eq
        (AffExpr.termsOf
          [(((pyGetD eta e).getD 0 0)⁻¹, Var.w e ((O e).getD 0 "") t),
           (-((pyGetD eta e).getD 1 0)⁻¹, Var.w e ((O e).getD 1 "") t)])
        (AffExpr.ofConst 0)
    .ok { index_uids := objs.map fun o => o.uid, rule := rule }

/-- Output of `add_simple_extraction_chp_relation`: the equivalent-output
equality family and the power-to-heat inequality family. -/
structure ExtractionOut where
  index_uids : List Uid
  equivalent_output : Uid → Nat → Constr
  pth_relation : Uid → Nat → Constr

/-- Embedding of `add_simple_extraction_chp_relation` (lines 257-324). -/
def add_simple_extraction_chp_relation (T : Nat) (I : Uid → Uid)
    (O : Uid → List Uid) (objs : List ExtractionObj) :
    Except String ExtractionOut :=
  if objs.isEmpty then
    .error "No objects defined. Please specify objects forwhich extraction chp constraints should be set."
  else
    let _out_max := pyDict (objs.map fun o => (o.uid, o.out_max))
    let beta := pyDict (objs.map fun o => (o.uid, o.beta))
    let sigma := pyDict (objs.map fun o => (o.uid, o.sigma))
    let eta_el_cond := pyDict (objs.map fun o => (o.uid, o.eta_el_cond))
    let equivalent_rule : Uid → Nat → Constr := fun e t =>
      Constr.eq
        (AffExpr.ofVar (Var.w (I e) e t))
        (AffExpr.termsOf
          [((pyGetD eta_el_cond e)⁻¹, Var.w e ((O e).getD 0 "") t),
           (pyGetD beta e * (pyGetD eta_el_cond e)⁻¹,
             Var.w e ((O e).getD 1 "") t)])
    let pth_rule : Uid → Nat → Constr := fun e t =>
      Constr.le
        (AffExpr.ofVar (Var.w e ((O e).getD 0 "") t))
        (AffExpr.termsOf [(pyGetD sigma e, Var.w e ((O e).getD 1 "") t)])
    .ok { index_uids := objs.map fun o => o.uid,
          equivalent_output := equivalent_rule, pth_relation := pth_rule }

/-- Value of the `sum_out_limit` attribute: a finite number or
`float('inf')`. -/
inductive Lim where
  | fin (q : ℚ)
  | inf
deriving DecidableEq, Repr, Inhabited

/-- One entry of the `outputs` list of an entity handled by
`add_global_output_limit`: the output entity's uid, whether it is a
`cp.Transport` instance, and - read only in the transport case - the uid
of the transport's first output, `o.outputs[0].uid`. -/
structure OutRef where
  uid : Uid
  is_transport : Bool
  transport_output0 : Uid

/-- An entity of `block.objs` in `add_global_output_limit`. -/
structure LimitObj where
  uid : Uid
  sum_out_limit : Lim
  outputs : List OutRef

/-- Output of `add_global_output_limit`: for every uid either a
constraint or `none` for `po.Constraint.Skip`. -/
structure GlobalLimitOut where
  index_uids : List Uid
  global_limit : Uid → Option Constr

/-- Embedding of `add_global_output_limit` (lines 326-374).  The rule
skips (`none`) when the summed expression degenerates to a plain number
(the term list is empty) or when the limit is infinite; a transport
output `o` contributes the variable `w[e, o.outputs[0].uid, t]`. -/
def add_global_output_limit (T : Nat) (objs : List LimitObj) :
    Except String GlobalLimitOut :=
  if objs.isEmpty then
    .error "Failed to create outputlimit. No objects defined!"
  else
    let limit := pyDict (objs.map fun o => (o.uid, o.sum_out_limit))
    let O := pyDict (objs.map fun o =>
      (o.uid, o.outputs.map fun r =>
        if r.is_transport then r.transport_output0 else r.uid))
    let rule : Uid → Option Constr := fun e =>
      let terms := ((List.range T).map fun t =>
        (pyGetD O e).map fun o => ((1 : ℚ), Var.w e o t)).flatten
      match pyGetD limit e with
      | .inf => none
      | .fin q =>
          if terms.isEmpty then none
          else some (Constr.le ⟨terms, -q⟩ (AffExpr.ofConst 0))
    .ok { index_uids := objs.map fun o => o.uid, global_limit := rule }

/-- Follows the words of claim C5 (not the source): the summed left-hand
side ranges over the *non-transport* outputs only, with the same skip
policy.  Used to compare the claim with the behaviour of
`add_global_output_limit`. -/
def add_global_output_limit_claim (T : Nat) (objs : List LimitObj) :
    Except String GlobalLimitOut :=
  if objs.isEmpty then
    .error "Failed to create outputlimit. No objects defined!"
  else
    let limit := pyDict (objs.map fun o => (o.uid, o.sum_out_limit))
    let O := pyDict (objs.map fun o =>
      (o.uid, (o.outputs.filter fun r => !r.is_transport).map fun r => r.uid))
    let rule : Uid → Option Constr := fun e =>
      let terms := ((List.range T).map fun t =>
        (pyGetD O e).map fun o => ((1 : ℚ), Var.w e o t)).flatten
      match pyGetD limit e with
      | .inf => none
      | .fin q =>
          if terms.isEmpty then none
          else some (Constr.le ⟨terms, -q⟩ (AffExpr.ofConst 0))
    .ok { index_uids := objs.map fun o => o.uid, global_limit := rule }

/-- A dynamically-typed Python attribute value.  The `out_max` attribute
of source entities is a list in this repository (`out_max=[1000000]` in
the example script), but the generators index it with an integer in some
places and with an output-uid string in the investment branch of
`add_fixed_source`; the latter raises `TypeError` on a list. -/
inductive PyVal where
  | num (q : ℚ)
  | list (xs : List PyVal)
  | dict (kvs : List (Uid × PyVal))

instance : Inhabited PyVal := ⟨.num 0⟩

/-- Python `v[i]` with an integer index: a list yields its `i`-th
element; an out-of-range index, a string-keyed dict or a number raises,
modelled by `none`. -/
def PyVal.getNat : PyVal → Nat → Option PyVal
  | .list xs, n => xs.get? n
  | _, _ => none

/-- Python `v[k]` with a string key: a dict lookup; indexing a list or a
number with a string raises `TypeError`, modelled by `none`. -/
def PyVal.getStr : PyVal → Uid → Option PyVal
  | .dict kvs, s => pyGet kvs s
  | _, _ => none

/-- The numeric content of a `PyVal`, where Python would use it as a
number. -/
def PyVal.asNum : PyVal → Option ℚ
  | .num q => some q
  | _ => none

instance : Inhabited AffExpr := ⟨AffExpr.ofConst 0⟩

instance : Inhabited Constr := ⟨Constr.eq (AffExpr.ofConst 0) (AffExpr.ofConst 0)⟩

/-- Modelled from the spec: `model.edges(block.objs)` lives in the
`OptimizationModel` class, which is not among the source files; the spec
says edges are "derived from `inputs`/`outputs`, never stored
independently - recomputed by traversal", so for the source entities
passed to it the edge list is one `(e.uid, o.uid)` pair per output. -/
def edges {α : Type} (uidOf : α → Uid) (outputsOf : α → List Uid)
    (objs : List α) : List (Uid × Uid) :=
  (objs.map fun o => (outputsOf o).map fun b => (uidOf o, b)).flatten

/-- A fixed source object of `add_fixed_source`: `uid`, output uids,
the normalised time series `val`, the capacity attribute `out_max`, and
the investment bound `add_out_limit`. -/
structure FixedSourceObj where
  uid : Uid
  outputs : List Uid
  val : Nat → ℚ
  out_max : PyVal
  add_out_limit : ℚ

/-- The value `val[e1][t] * out_max[e1][0]` computed by both source
generators; `none` when the `out_max[e1][0]` lookup raises. -/
def val_times_out_max0 (out_maxD : List (Uid × PyVal))
    (valD : List (Uid × (Nat → ℚ))) (e1 : Uid) (t : Nat) : Option ℚ :=
  (((pyGetD out_maxD e1).getNat 0).bind PyVal.asNum).map
    fun q => pyGetD valD e1 t * q

/-- The per-edge, per-timestep pairs
`(w[e1, e2, t], val[e1][t] * out_max[e1][0])` that the source generators
loop over (`for (e1, e2) in ee: for t in model.timesteps: ...`). -/
def source_w_pairs (T : Nat) (out_maxD : List (Uid × PyVal))
    (valD : List (Uid × (Nat → ℚ))) (ee : List (Uid × Uid)) :
    List (Var × Option ℚ) :=
  (ee.map fun p => (List.range T).map fun t =>
    (Var.w p.1 p.2 t, val_times_out_max0 out_maxD valD p.1 t)).flatten

/-- The index set `block.uids x model.timesteps` of a constraint family. -/
def index_pairs (T : Nat) (uids : List Uid) : List (Uid × Nat) :=
  (uids.map fun e => (List.range T).map fun t => (e, t)).flatten

/-- The `invest` rule of `add_fixed_source`:
`w[e, O[e][0], t] == (out_max[e][O[e][0]] + add_out[e]) * val[e][t]`;
`none` when the `out_max[e][model.O[e][0]]` lookup raises. -/
def fixed_source_invest_rule (out_maxD : List (Uid × PyVal))
    (valD : List (Uid × (Nat → ℚ))) (O : Uid → List Uid)
    (e : Uid) (t : Nat) : Option Constr :=
  (((pyGetD out_maxD e).getStr ((O e).getD 0 "")).bind PyVal.asNum).map
    fun q =>
      Constr.eq (AffExpr.ofVar (Var.w e ((O e).getD 0 "") t))
        ⟨[(pyGetD valD e t, Var.add_out e)], q * pyGetD valD e t⟩

/-- The curtailment rule of `add_dispatch_source`:
`CURTAIL(e,t) == val[e][t] * out_max[e][0] - w[e, O[e][0], t]`. -/
def dispatch_curtailment_rule (out_maxD : List (Uid × PyVal))
    (valD : List (Uid × (Nat → ℚ))) (O : Uid → List Uid)
    (e : Uid) (t : Nat) : Option Constr :=
  (((pyGetD out_maxD e).getNat 0).bind PyVal.asNum).map fun q =>
    Constr.eq (AffExpr.ofVar (Var.curtailment_var e t))
      ⟨[(-1, Var.w e ((O e).getD 0 "") t)], pyGetD valD e t * q⟩

/-- Output of `add_fixed_source`: fixed variable values in the
non-investment branch; upper bounds on `add_out` and the `invest`
equality family in the investment branch. -/
structure FixedSourceOut where
  fixes : List (Var × ℚ)
  add_out_ub : List (Uid × ℚ)
  invest : List ((Uid × Nat) × Constr)

/-- Embedding of `add_fixed_source` (lines 376-439).  A failing attribute
indexing (for instance `out_max[e][model.O[e][0]]` on a list-valued
`out_max`, which raises `TypeError` in Python) aborts the generator. -/
def add_fixed_source (T : Nat) (O : Uid → List Uid) (invest_mode : Bool)
    (objs : List FixedSourceObj) : Except String FixedSourceOut :=
  if objs.isEmpty then
    .error "No objects defined. Please specify objects forwhich fixed source constriants should be created."
  else
    let out_max := pyDict (objs.map fun o => (o.uid, o.out_max))
    let val := pyDict (objs.map fun o => (o.uid, o.val))
    if !invest_mode then
      let ee := edges (fun o => o.uid) (fun o => o.outputs) objs
      let fixesOpt := source_w_pairs T out_max val ee
      if fixesOpt.all fun x => x.2.isSome then
        .ok { fixes := fixesOpt.map fun x => (x.1, x.2.getD 0),
              add_out_ub := [], invest := [] }
      else .error "TypeError"
    else
      let add_out_limit := pyDict (objs.map fun o => (o.uid, o.add_out_limit))
      let uids := objs.map fun o => o.uid
      let ub := uids.map fun e => (e, pyGetD add_out_limit e)
      let fam := (index_pairs T uids).map fun p =>
        (p, fixed_source_invest_rule out_max val O p.1 p.2)
      if fam.all fun x => x.2.isSome then
        .ok { fixes := [], add_out_ub := ub,
              invest := fam.map fun x => (x.1, x.2.getD default) }
      else .error "TypeError"

/-- A dispatchable source object of `add_dispatch_source`. -/
structure DispatchObj where
  uid : Uid
  outputs : List Uid
  val : Nat → ℚ
  out_max : PyVal

/-- Output of `add_dispatch_source`: the index set over which the
non-negative `curtailment_var` is declared, the upper bounds set on the
source flow variables, and the curtailment equality family. -/
structure DispatchOut where
  curtailment_index : List (Uid × Nat)
  ub_actions : List (Var × ℚ)
  curtailment : Uid → Nat → Constr

/-- Interpretation of declaring `curtailment_var` over the index set
`within po.NonNegativeReals`: an assignment respects the declared
domains when every declared curtailment variable is non-negative. -/
def DispatchOut.domainOk (out : DispatchOut) (σ : Var → ℚ) : Prop :=
  ∀ p ∈ out.curtailment_index, 0 ≤ σ (Var.curtailment_var p.1 p.2)

/-- Embedding of `add_dispatch_source` (lines 441-494). -/
def add_dispatch_source (T : Nat) (O : Uid → List Uid)
    (objs : List DispatchObj) : Except String DispatchOut :=
  if objs.isEmpty then
    .error "No objects defined. Please specify objects forwhich dispatch source constaints should be set."
  else
    let uids := objs.map fun o => o.uid
    let indexset := index_pairs T uids
    let out_max := pyDict (objs.map fun o => (o.uid, o.out_max))
    let val := pyDict (objs.map fun o => (o.uid, o.val))
    let ee := edges (fun o => o.uid) (fun o => o.outputs) objs
    let ubsOpt := source_w_pairs T out_max val ee
    if (ubsOpt.all fun x => x.2.isSome) &&
        (indexset.all fun p =>
          (dispatch_curtailment_rule out_max val O p.1 p.2).isSome) then
      .ok { curtailment_index := indexset,
            ub_actions := ubsOpt.map fun x => (x.1, x.2.getD 0),
            curtailment := fun e t =>
              (dispatch_curtailment_rule out_max val O e t).getD default }
    else .error "TypeError"

/-- A storage object of `add_storage_balance`. -/
structure StorageObj where
  uid : Uid
  cap_initial : ℚ
  cap_loss : ℚ
  eta_in : ℚ
  eta_out : ℚ

/-- One step performed by `add_storage_balance`, in execution order:
fixing a capacity variable to a value, or adding one balance constraint
of the `block.balance` family. -/
inductive StorageAct where
  | fix (v : Var) (q : ℚ)
  | balance (e : Uid) (t : Nat) (c : Constr)
deriving DecidableEq, Repr

/-- Output of `add_storage_balance`: the ordered list of actions and the
balance rule (the constraint the family holds at each index). -/
structure StorageBalanceOut where
  actions : List StorageAct
  balance : Uid → Nat → Constr

/-- Embedding of `add_storage_balance` (lines 496-555).  The capacity
variable of the last timestep `len(model.timesteps) - 1` is fixed to
`cap_initial` before the balance family is built. -/
def add_storage_balance (T : Nat) (I : Uid → Uid) (O : Uid → List Uid)
    (objs : List StorageObj) : Except String StorageBalanceOut :=
  if objs.isEmpty then
    .error "No objects defined. Please specify objects forwhich storage balanece constraint should be set."
  else
    let cap_initial := pyDict (objs.map fun o => (o.uid, o.cap_initial))
    let cap_loss := pyDict (objs.map fun o => (o.uid, o.cap_loss))
    let eta_in := pyDict (objs.map fun o => (o.uid, o.eta_in))
    let eta_out := pyDict (objs.map fun o => (o.uid, o.eta_out))
    let uids := objs.map fun o => o.uid
    let t_last := T - 1
    let fix_acts := uids.map fun e =>
      StorageAct.fix (Var.cap e t_last) (pyGetD cap_initial e)
    let rule : Uid → Nat → Constr := fun e t =>
      if t = 0 then
        Constr.eq
          ⟨[((1 : ℚ), Var.cap e t),
            (-(pyGetD eta_in e), Var.w (I e) e t),
            ((pyGetD eta_out e)⁻¹, Var.w e ((O e).getD 0 "") t)],
            -(pyGetD cap_initial e)⟩
          (AffExpr.ofConst 0)
      else
        Constr.eq
          ⟨[((1 : ℚ), Var.cap e t),
            (-(1 - pyGetD cap_loss e), Var.cap e (t - 1)),
            (-(pyGetD eta_in e), Var.w (I e) e t),
            ((pyGetD eta_out e)⁻¹, Var.w e ((O e).getD 0 "") t)], 0⟩
          (AffExpr.ofConst 0)
    let indexset := (uids.map fun e => (List.range T).map fun t =>
      (e, t)).flatten
    .ok { actions := fix_acts ++
            (indexset.map fun p => StorageAct.balance p.1 p.2 (rule p.1 p.2)),
          balance := rule }

/-- A storage object of `add_storage_charge_discharge_limits`. -/
structure StorageLimitObj where
  uid : Uid
  c_rate_out : ℚ
  c_rate_in : ℚ
  cap_max : ℚ

/-- Output of `add_storage_charge_discharge_limits`: the two limit
families over `block.uids` and the timesteps. -/
structure StorageLimitOut where
  index_uids : List Uid
  discharge_limit_invest : Uid → Nat → Constr
  charge_limit_invest : Uid → Nat → Constr

/-- Embedding of `add_storage_charge_discharge_limits` (lines 558-609).
This generator has no empty-subset guard; note that the charge rule
indexes the flow variable as `model.w[e, model.I[e], t]`, with the
storage uid first. -/
def add_storage_charge_discharge_limits (T : Nat) (I : Uid → Uid)
    (O : Uid → List Uid) (objs : List StorageLimitObj) :
    Except String StorageLimitOut :=
  let c_rate_out := pyDict (objs.map fun o => (o.uid, o.c_rate_out))
  let c_rate_in := pyDict (objs.map fun o => (o.uid, o.c_rate_in))
  let cap_max := pyDict (objs.map fun o => (o.uid, o.cap_max))
  let discharge : Uid → Nat → Constr := fun e t =>
    Constr.le
      ⟨[((1 : ℚ), Var.w e ((O e).getD 0 "") t),
        (-(pyGetD c_rate_out e), Var.add_cap e)],
        -(pyGetD cap_max e * pyGetD c_rate_out e)⟩
      (AffExpr.ofConst 0)
  let charge : Uid → Nat → Constr := fun e t =>
    Constr.le
      ⟨[((1 : ℚ), Var.w e (I e) t),
        (-(pyGetD c_rate_in e), Var.add_cap e)],
        -(pyGetD cap_max e * pyGetD c_rate_in e)⟩
      (AffExpr.ofConst 0)
  .ok { index_uids := objs.map fun o => o.uid,
        discharge_limit_invest := discharge,
        charge_limit_invest := charge }

/-- An object of `add_output_gradient_calc`. -/
structure GradObj where
  uid : Uid
  grad_pos : ℚ
  grad_neg : ℚ

/-- One direction of the gradient block: the bounds `(0, grad_max[e])`
declared for the variable at each index, and the calc family (`none`
models `po.Constraint.Skip`). -/
structure GradFam where
  bounds : Uid → Nat → ℚ × ℚ
  grad_calc : Uid → Nat → Option Constr

/-- Output of `add_output_gradient_calc`: each direction is present
exactly when its variable/constraint pair was declared. -/
structure GradOut where
  pos : Option GradFam
  neg : Option GradFam

/-- Embedding of `add_output_gradient_calc` (lines 612-694). -/
def add_output_gradient_calc (T : Nat) (O : Uid → List Uid)
    (objs : List GradObj) (grad_direc : String) : Except String GradOut :=
  if objs.isEmpty then
    .error "No objects defined. Please specify objects forwhich output gradient constraints should be set."
  else
    let pos : Option GradFam :=
      if grad_direc = "positive" ∨ grad_direc = "both" then
        let grad_pos := pyDict (objs.map fun o => (o.uid, o.grad_pos))
        some { bounds := fun e _ => (0, pyGetD grad_pos e),
               grad_calc := fun e t =>
                 if 0 < t then
                   some (Constr.le
                     (AffExpr.termsOf
                       [((1 : ℚ), Var.w e ((O e).getD 0 "") t),
                        (-1, Var.w e ((O e).getD 0 "") (t - 1))])
                     (AffExpr.ofVar (Var.grad_pos_var e t)))
                 else none }
      else none
    let neg : Option GradFam :=
      if grad_direc = "negative" ∨ grad_direc = "both" then
        let grad_neg := pyDict (objs.map fun o => (o.uid, o.grad_neg))
        some { bounds := fun e _ => (0, pyGetD grad_neg e),
               grad_calc := fun e t =>
                 if 0 < t then
                   some (Constr.le
                     (AffExpr.termsOf
                       [((1 : ℚ), Var.w e ((O e).getD 0 "") (t - 1)),
                        (-1, Var.w e ((O e).getD 0 "") t)])
                     (AffExpr.ofVar (Var.grad_neg_var e t)))
                 else none }
      else none
    .ok { pos := pos, neg := neg }

/-- Concrete storage for the C3 analysis: input bus `bel`, output bus
`belout`, `cap_max = 6`, `c_rate_in = c_rate_out = 1`. -/
def stoLimitObj : StorageLimitObj :=
  { uid := "sto", c_rate_out := 1, c_rate_in := 1, cap_max := 6 }

/-- Assignment charging the storage with 1000 units on the edge from the
input bus into the storage. -/
def stoChargeAssign : Var → ℚ := fun v =>
  if v = Var.w "bel" "sto" 0 then 1000 else 0

/-- Concrete fixed source for the C7 analysis, shaped like the `wind`
entity of the repository's example script: `out_max` is the list
`[1000000]` and the single output bus is `bel`. -/
def windObj : FixedSourceObj :=
  { uid := "wind", outputs := ["bel"], val := fun _ => 1/2,
    out_max := .list [.num 1000000], add_out_limit := 0 }

/-- Bus objects for the C10 witness: one unbalanced, one balanced. -/
def busObjsC10 : List BusObj :=
  [{ uid := "b1", balanced := false, inputs := [], outputs := [] },
   { uid := "b2", balanced := true, inputs := [], outputs := [] }]

/-- Entity for the C5 counterexample: its only output is a transport
(with destination bus `bus2`) and its limit is finite. -/
def transportLimitObj : LimitObj :=
  { uid := "rc", sum_out_limit := .fin 5,
    outputs := [{ uid := "tr", is_transport := true,
                  transport_output0 := "bus2" }] }

/-- Entity for the C5 witness: one ordinary (non-transport) output and a
finite limit. -/
def sinkLimitObj : LimitObj :=
  { uid := "snk", sum_out_limit := .fin 7,
    outputs := [{ uid := "coal", is_transport := false,
                  transport_output0 := "" }] }

/-- Storage for the C2 witness, shaped like Scenario C of the spec. -/
def storageObjW : StorageObj :=
  { uid := "sto", cap_initial := 0, cap_loss := 0,
    eta_in := 1, eta_out := 4/5 }

/-- Generator entity for the C9 witness. -/
def gradObjW : GradObj := { uid := "gen", grad_pos := 3, grad_neg := 4 }

/-- Dispatchable source entity for the C8 witness. -/
def pvObj : DispatchObj :=
  { uid := "pv", outputs := ["bel"], val := fun _ => 1/4,
    out_max := .list [.num 582000] }

/-- Transport entity for the C1 witness. -/
def transportC1 : Transport :=
  { input0 := "b1", output0 := "b2", eta0 := 9/10, out_max0 := 50 }

/-- Bus entity for the C1 witness: one plain input, one transport input,
one plain output; allows excess. -/
def busC1 : BusObj :=
  { uid := "b2", balanced := true,
    inputs := [("src", false), ("tr", true)],
    outputs := [("snk", false)] }

/-! ### Helper lemmas -/

theorem AffExpr.eval_ofConst (σ : Var → ℚ) (q : ℚ) :
    (AffExpr.ofConst q).eval σ = q := by
  simp [AffExpr.eval, AffExpr.ofConst]

theorem AffExpr.eval_ofVar (σ : Var → ℚ) (v : Var) :
    (AffExpr.ofVar v).eval σ = σ v := by
  simp [AffExpr.eval, AffExpr.ofVar]

theorem AffExpr.eval_termsOf (σ : Var → ℚ) (l : List (ℚ × Var)) :
    (AffExpr.termsOf l).eval σ = (l.map (fun cv => cv.1 * σ cv.2)).sum := by
  simp [AffExpr.eval, AffExpr.termsOf]

theorem AffExpr.eval_add (σ : Var → ℚ) (a b : AffExpr) :
    (a.add b).eval σ = a.eval σ + b.eval σ := by
  simp [AffExpr.eval, AffExpr.add]
  ring

theorem pyInsert_of_notMem {K V : Type} [DecidableEq K] (k : K) (v : V)
    (d : List (K × V)) (h : k ∉ d.map Prod.fst) :
    pyInsert k v d = d ++ [(k, v)] := by
  induction d with
  | nil => rfl
  | cons kv rest ih =>
      simp only [List.map_cons, List.mem_cons] at h
      push_neg at h
      simp only [pyInsert, ih h.2, List.cons_append]
      rw [if_neg (fun hh => h.1 hh.symm)]

theorem pyDict_go_of_nodup {K V : Type} [DecidableEq K]
    (kvs : List (K × V)) :
    ∀ acc : List (K × V),
      (acc.map Prod.fst ++ kvs.map Prod.fst).Nodup →
      List.foldl (fun d kv => pyInsert kv.1 kv.2 d) acc kvs = acc ++ kvs := by
  induction kvs with
  | nil => intro acc _; simp
  | cons kv rest ih =>
      intro acc h
      have hnotmem : kv.1 ∉ acc.map Prod.fst := by
        intro hmem
        have hdisj := (List.nodup_append.mp h).2.2
        exact hdisj hmem (by simp)
      have hstep : pyInsert kv.1 kv.2 acc = acc ++ [kv] := by
        rw [pyInsert_of_notMem _ _ _ hnotmem]
      simp only [List.foldl_cons, hstep]
      have h' : ((acc ++ [kv]).map Prod.fst ++ rest.map Prod.fst).Nodup := by
        simp only [List.map_append, List.map_cons, List.map_nil] at h ⊢
        simpa [List.append_assoc] using h
      rw [ih (acc ++ [kv]) h']
      simp

/-- On a key-nodup pair list, building the Python dict is the identity. -/
theorem pyDict_eq_self {K V : Type} [DecidableEq K] (kvs : List (K × V))
    (h : (kvs.map Prod.fst).Nodup) : pyDict kvs = kvs := by
  have := pyDict_go_of_nodup kvs [] (by simpa using h)
  simpa [pyDict] using this

/-- Looking up an object's key in the dict comprehension
`{key o : f o for o in objs}` returns that object's value, provided the
keys are unique. -/
theorem pyGet_pyDict_map {α β K : Type} [DecidableEq K]
    (objs : List α) (key : α → K) (f : α → β) (e : α)
    (he : e ∈ objs) (hnd : (objs.map key).Nodup) :
    pyGet (pyDict (objs.map fun o => (key o, f o))) (key e) = some (f e) := by
  rw [pyDict_eq_self _ (by simpa [Function.comp] using hnd)]
  induction objs with
  | nil => cases he
  | cons o rest ih =>
      rcases List.mem_cons.mp he with rfl | hmem
      · simp [pyGet]
      · have hne : key o ≠ key e := by
          simp only [List.map_cons, List.nodup_cons] at hnd
          intro hk
          exact hnd.1 (hk ▸ List.mem_map_of_mem key hmem)
        simp only [List.map_cons, List.nodup_cons] at hnd
        simpa [pyGet, hne] using ih hmem hnd.2

theorem pyGetD_pyDict_map {α β K : Type} [DecidableEq K] [Inhabited β]
    (objs : List α) (key : α → K) (f : α → β) (e : α)
    (he : e ∈ objs) (hnd : (objs.map key).Nodup) :
    pyGetD (pyDict (objs.map fun o => (key o, f o))) (key e) = f e := by
  simp [pyGetD, pyGet_pyDict_map objs key f e he hnd]

theorem mem_edges {α : Type} (uidOf : α → Uid) (outputsOf : α → List Uid)
    (objs : List α) (p : Uid × Uid) :
    p ∈ edges uidOf outputsOf objs ↔
      ∃ o, o ∈ objs ∧ uidOf o = p.1 ∧ p.2 ∈ outputsOf o := by
  constructor
  · intro hp
    simp only [edges, List.mem_flatten, List.mem_map] at hp
    obtain ⟨l, ⟨o, ho, rfl⟩, hpl⟩ := hp
    obtain ⟨b, hb, hpb⟩ := List.mem_map.mp hpl
    subst hpb
    exact ⟨o, ho, rfl, hb⟩
  · rintro ⟨o, ho, h1, h2⟩
    obtain ⟨p1, p2⟩ := p
    simp only at h1 h2
    subst h1
    simp only [edges, List.mem_flatten, List.mem_map]
    exact ⟨(outputsOf o).map fun b => (uidOf o, b), ⟨o, ho, rfl⟩,
      List.mem_map_of_mem _ h2⟩

theorem filter_of_map {α β : Type} (f : α → β) (p : β → Bool) (l : List α) :
    (l.map f).filter p = (l.filter fun a => p (f a)).map f := by
  induction l with
  | nil => rfl
  | cons a l ih =>
      simp only [List.map_cons, List.filter_cons]
      cases h : p (f a) <;> simp [h, ih]

theorem isEmpty_false_of_ne_nil {α : Type} {l : List α} (h : l ≠ []) :
    l.isEmpty = false := by
  cases l with
  | nil => exact absurd rfl h
  | cons a l => rfl

theorem sum_map_flatten {α M : Type} [AddCommMonoid M]
    (L : List (List α)) (f : α → M) :
    ((L.flatten).map f).sum = (L.map fun l => (l.map f).sum).sum := by
  rw [List.map_flatten, List.sum_flatten, List.map_map]
  rfl

theorem c5_sum_shape (σ : Var → ℚ) (u : Uid) (T : Nat)
    (outs : List OutRef) :
    ((((List.range T).map fun t =>
        (outs.map fun r =>
          if r.is_transport then r.transport_output0 else r.uid).map
          fun o => ((1 : ℚ), Var.w u o t)).flatten).map
        fun cv => cv.1 * σ cv.2).sum
    = ((List.range T).map fun t =>
        (outs.map fun r =>
          σ (Var.w u
            (if r.is_transport then r.transport_output0 else r.uid)
            t)).sum).sum := by
  rw [sum_map_flatten, List.map_map]
  refine congrArg List.sum (List.map_congr_left fun t ht => ?_)
  simp [List.map_map, Function.comp_def]

theorem holds_le_zero_iff (σ : Var → ℚ) (terms : List (ℚ × Var)) (k : ℚ) :
    (Constr.le ⟨terms, k⟩ (AffExpr.ofConst 0)).holds σ ↔
      (terms.map fun cv => cv.1 * σ cv.2).sum ≤ -k := by
  simp only [Constr.holds, AffExpr.eval, AffExpr.ofConst, List.map_nil,
    List.sum_nil, add_zero]
  constructor <;> intro h <;> linarith

/-! ### Claims -/

/-- C4, counterexample: called on an empty entity subset, the storage
charge/discharge limit generator does not raise a configuration error,
so the claimed guard does not hold uniformly for all generators of the
module. -/
theorem claim4_counterexample :
    isErr (add_storage_charge_discharge_limits 1 (fun _ => "")
      (fun _ => []) []) = false := rfl

/-- C4, amended: every constraint generator of the module raises a
configuration error immediately at invocation on an empty entity subset,
except `add_storage_charge_discharge_limits`, which has no such guard
and returns normally. -/
theorem claim4_empty_subset_guards :
    (∀ T transports ex sh,
      isErr (add_bus_balance T transports [] ex sh) = true) ∧
    (∀ T I O idx, isErr (add_simple_io_relation T I O [] idx) = true) ∧
    (∀ T I O, isErr (add_eta_total_chp_relation T I O []) = true) ∧
    (∀ T I O, isErr (add_simple_chp_relation T I O []) = true) ∧
    (∀ T I O,
      isErr (add_simple_extraction_chp_relation T I O []) = true) ∧
    (∀ T, isErr (add_global_output_limit T []) = true) ∧
    (∀ T O inv, isErr (add_fixed_source T O inv []) = true) ∧
    (∀ T O, isErr (add_dispatch_source T O []) = true) ∧
    (∀ T I O, isErr (add_storage_balance T I O []) = true) ∧
    (∀ T O gd, isErr (add_output_gradient_calc T O [] gd) = true) ∧
    (∀ T I O,
      isErr (add_storage_charge_discharge_limits T I O []) = false) := by
  refine ⟨?_, ?_, ?_, ?_, ?_, ?_, ?_, ?_, ?_, ?_, ?_⟩ <;> intros <;> rfl

/-- C3: the discharge bound is emitted as claimed, but the charge rule
constrains `w[e, I[e], t]` - the flow variable from the storage to its
input bus - instead of the inflow `W(in, e, t)` named by the claim and by
the function's own docstring: the generator succeeds, its charge
constraint is satisfied by an assignment that charges with 1000 units,
while the documented bound `W(I(e), e, t) <= (cap_max + ADDCAP) * c_rate_in`
is violated by that assignment. -/
theorem claim3_charge_limit_wrong_edge :
    ∃ out, add_storage_charge_discharge_limits 1 (fun _ => "bel")
        (fun _ => ["belout"]) [stoLimitObj] = .ok out ∧
      out.charge_limit_invest "sto" 0 =
        Constr.le ⟨[((1 : ℚ), Var.w "sto" "bel" 0),
          (-1, Var.add_cap "sto")], -(6 * 1)⟩ (AffExpr.ofConst 0) ∧
      (out.charge_limit_invest "sto" 0).holds stoChargeAssign ∧
      ¬ (stoChargeAssign (Var.w "bel" "sto" 0) ≤
          (6 + stoChargeAssign (Var.add_cap "sto")) * 1) := by
  have hc : (Constr.le ⟨[((1 : ℚ), Var.w "sto" "bel" 0),
      (-1, Var.add_cap "sto")], -(6 * 1)⟩
      (AffExpr.ofConst 0)).holds stoChargeAssign := by
    simp [Constr.holds, AffExpr.eval, AffExpr.ofConst, stoChargeAssign]
  refine ⟨_, rfl, rfl, hc, ?_⟩
  simp [stoChargeAssign]
  norm_num

/-- C7: in investment mode the generator evaluates
`out_max[e][model.O[e][0]]`, indexing the list-valued `out_max` with the
output uid string, which raises `TypeError`; the very same entity is
handled fine by the non-investment branch, which reads `out_max[e][0]`
and fixes the flow to `val * out_max[0]`. -/
theorem claim7_invest_out_max_lookup_crashes :
    add_fixed_source 1 (fun _ => ["bel"]) true [windObj] =
      .error "TypeError" ∧
    add_fixed_source 1 (fun _ => ["bel"]) false [windObj] =
      .ok { fixes := [(Var.w "wind" "bel" 0, 1/2 * 1000000)],
            add_out_ub := [], invest := [] } := by
  constructor
  · rfl
  · rfl

/-- C10: a bus whose `balanced` attribute is false is silently excluded
from the index set of the balance family while the generator still runs
and raises no error. -/
theorem claim10_nonbalanced_excluded
    (T : Nat) (transports : List Transport) (objs : List BusObj)
    (ex sh : List Uid) (b : BusObj)
    (hb : b ∈ objs) (hnb : b.balanced = false)
    (hnd : (objs.map fun o => o.uid).Nodup) :
    ∃ out, add_bus_balance T transports objs ex sh = .ok out ∧
      b.uid ∉ out.balance_index := by
  have hne : objs ≠ [] := List.ne_nil_of_mem hb
  simp only [add_bus_balance, isEmpty_false_of_ne_nil hne,
    Bool.false_eq_true, if_false]
  refine ⟨_, rfl, ?_⟩
  · intro hmem
    simp only [List.mem_map, List.mem_filter] at hmem
    obtain ⟨b', ⟨hb', hbal'⟩, huid⟩ := hmem
    have : b' = b :=
      List.inj_on_of_nodup_map hnd hb' hb huid
    rw [this] at hbal'
    rw [hnb] at hbal'
    exact Bool.false_ne_true hbal'

/-- C10 witness at a concrete model. -/
theorem claim10_witness :
    ∃ out, add_bus_balance 1 [] busObjsC10 [] [] = .ok out ∧
      "b1" ∉ out.balance_index :=
  claim10_nonbalanced_excluded 1 [] busObjsC10 [] []
    { uid := "b1", balanced := false, inputs := [], outputs := [] }
    (by simp [busObjsC10]) rfl (by simp [busObjsC10])

/-- C5, counterexample: for an entity whose only output is a transport,
the claim (summing non-transport outputs only, with the stated skip
policy) asserts that no constraint is emitted, but the generator emits
one over the variable `w[e, transport.outputs[0].uid, t]`. -/
theorem claim5_counterexample :
    ∃ o1 o2, add_global_output_limit 1 [transportLimitObj] = .ok o1 ∧
      add_global_output_limit_claim 1 [transportLimitObj] = .ok o2 ∧
      o1.global_limit "rc" =
        some (Constr.le ⟨[((1 : ℚ), Var.w "rc" "bus2" 0)], -5⟩
          (AffExpr.ofConst 0)) ∧
      o2.global_limit "rc" = none := by
  refine ⟨_, _, rfl, rfl, rfl, rfl⟩

/-- C5, amended: for every entity the generator emits
Σ_t Σ_o `W(e, o', t)` <= `sum_out_limit(e)` where `o'` is the output
itself for a non-transport output and the transport's first output for
a transport output; the instance is skipped exactly when the sum has no
terms (`T = 0` or no outputs) or the limit is infinite. -/
theorem claim5_global_output_limit (T : Nat) (objs : List LimitObj)
    (e : LimitObj) (he : e ∈ objs)
    (hnd : (objs.map fun o => o.uid).Nodup) :
    ∃ out, add_global_output_limit T objs = .ok out ∧
      ((T = 0 ∨ e.outputs = [] ∨ e.sum_out_limit = Lim.inf) →
        out.global_limit e.uid = none) ∧
      (∀ q, e.sum_out_limit = Lim.fin q → 0 < T → e.outputs ≠ [] →
        ∃ c, out.global_limit e.uid = some c ∧
          ∀ σ, c.holds σ ↔
            ((List.range T).map fun t =>
              (e.outputs.map fun r =>
                σ (Var.w e.uid
                    (if r.is_transport then r.transport_output0 else r.uid)
                    t)).sum).sum ≤ q) := by
  have hne : objs ≠ [] := List.ne_nil_of_mem he
  have hlim := pyGetD_pyDict_map objs (fun o => o.uid)
    (fun o => o.sum_out_limit) e he hnd
  have hO := pyGetD_pyDict_map objs (fun o => o.uid)
    (fun o => o.outputs.map fun r =>
      if r.is_transport then r.transport_output0 else r.uid) e he hnd
  simp only [add_global_output_limit, isEmpty_false_of_ne_nil hne,
    Bool.false_eq_true, if_false]
  refine ⟨_, rfl, ?_, ?_⟩
  · intro h
    simp only [hlim, hO]
    rcases h with h0 | hout | hinf
    · subst h0
      cases hcase : e.sum_out_limit <;> simp
    · rw [hout]
      cases hcase : e.sum_out_limit <;> simp
    · rw [hinf]
  · intro q hq hT hout
    simp only [hlim, hO, hq]
    obtain ⟨r, rs, hrs⟩ := List.exists_cons_of_ne_nil hout
    obtain ⟨T', rfl⟩ : ∃ T', T = T' + 1 :=
      ⟨T - 1, (Nat.succ_pred_eq_of_pos hT).symm⟩
    have hterms :
        (((List.range (T' + 1)).map fun t =>
          (e.outputs.map fun r =>
            if r.is_transport then r.transport_output0 else r.uid).map
            fun o => ((1 : ℚ), Var.w e.uid o t)).flatten).isEmpty = false := by
      rw [hrs, List.range_succ_eq_map]
      rfl
    rw [hterms]
    simp only [Bool.false_eq_true, if_false]
    refine ⟨_, rfl, ?_⟩
    intro σ
    rw [holds_le_zero_iff, c5_sum_shape, neg_neg]

/-- C5 witness at a concrete model with one timestep. -/
theorem claim5_witness :
    ∃ out, add_global_output_limit 1 [sinkLimitObj] = .ok out ∧
      ((1 = 0 ∨ sinkLimitObj.outputs = [] ∨
          sinkLimitObj.sum_out_limit = Lim.inf) →
        out.global_limit sinkLimitObj.uid = none) ∧
      (∀ q, sinkLimitObj.sum_out_limit = Lim.fin q → 0 < 1 →
        sinkLimitObj.outputs ≠ [] →
        ∃ c, out.global_limit sinkLimitObj.uid = some c ∧
          ∀ σ, c.holds σ ↔
            ((List.range 1).map fun t =>
              (sinkLimitObj.outputs.map fun r =>
                σ (Var.w sinkLimitObj.uid
                    (if r.is_transport then r.transport_output0 else r.uid)
                    t)).sum).sum ≤ q) :=
  claim5_global_output_limit 1 [sinkLimitObj] sinkLimitObj
    (by simp) (by simp)

/-- C2: for every storage the emitted balance constraint at `t = 0` is
equivalent to `CAP(e,0) = cap_initial + W(in,e,0)*eta_in - W(e,out,0)/eta_out`,
at `t > 0` to
`CAP(e,t) = CAP(e,t-1)*(1-cap_loss) + W(in,e,t)*eta_in - W(e,out,t)/eta_out`,
and the generator fixes the capacity variable of the last timestep to
`cap_initial` before any balance constraint is built. -/
theorem claim2_storage_balance (T : Nat) (I : Uid → Uid)
    (O : Uid → List Uid) (objs : List StorageObj) (e : StorageObj)
    (o : Uid) (os : List Uid)
    (he : e ∈ objs) (hnd : (objs.map fun s => s.uid).Nodup)
    (hO : O e.uid = o :: os) (t : Nat) (ht : t < T) :
    ∃ out, add_storage_balance T I O objs = .ok out ∧
      (∀ σ, (out.balance e.uid 0).holds σ ↔
        σ (Var.cap e.uid 0) = e.cap_initial
          + σ (Var.w (I e.uid) e.uid 0) * e.eta_in
          - σ (Var.w e.uid o 0) / e.eta_out) ∧
      (0 < t → ∀ σ, (out.balance e.uid t).holds σ ↔
        σ (Var.cap e.uid t) =
          σ (Var.cap e.uid (t - 1)) * (1 - e.cap_loss)
          + σ (Var.w (I e.uid) e.uid t) * e.eta_in
          - σ (Var.w e.uid o t) / e.eta_out) ∧
      (∃ fix_part constr_part, out.actions = fix_part ++ constr_part ∧
        StorageAct.fix (Var.cap e.uid (T - 1)) e.cap_initial ∈ fix_part ∧
        (∀ a ∈ fix_part, ∃ v q, a = StorageAct.fix v q) ∧
        (∀ a ∈ constr_part, ∃ e' t' c, a = StorageAct.balance e' t' c)) := by
  have hne : objs ≠ [] := List.ne_nil_of_mem he
  have hci := pyGetD_pyDict_map objs (fun s => s.uid)
    (fun s => s.cap_initial) e he hnd
  have hcl := pyGetD_pyDict_map objs (fun s => s.uid)
    (fun s => s.cap_loss) e he hnd
  have hei := pyGetD_pyDict_map objs (fun s => s.uid)
    (fun s => s.eta_in) e he hnd
  have heo := pyGetD_pyDict_map objs (fun s => s.uid)
    (fun s => s.eta_out) e he hnd
  simp only [add_storage_balance, isEmpty_false_of_ne_nil hne,
    Bool.false_eq_true, if_false]
  refine ⟨_, rfl, ?_, ?_, ?_⟩
  · intro σ
    simp only [hci, hei, heo, hO, eq_self_iff_true, if_true, Constr.holds,
      AffExpr.eval, AffExpr.ofConst, List.map_cons, List.map_nil,
      List.sum_cons, List.sum_nil, List.getD_cons_zero]
    rw [div_eq_mul_inv]
    constructor <;> intro h <;> linarith
  · intro ht0 σ
    simp only [hci, hcl, hei, heo, hO, if_neg (Nat.pos_iff_ne_zero.mp ht0),
      Constr.holds, AffExpr.eval, AffExpr.ofConst, List.map_cons,
      List.map_nil, List.sum_cons, List.sum_nil, List.getD_cons_zero]
    rw [div_eq_mul_inv]
    constructor <;> intro h <;> linarith
  · refine ⟨_, _, rfl, ?_, ?_, ?_⟩
    · have hm : e.uid ∈ objs.map fun s => s.uid :=
        List.mem_map_of_mem _ he
      have := List.mem_map_of_mem
        (fun u => StorageAct.fix (Var.cap u (T - 1))
          (pyGetD (pyDict (objs.map fun s => (s.uid, s.cap_initial))) u)) hm
      simpa [hci] using this
    · intro a ha
      obtain ⟨u, _, rfl⟩ := List.mem_map.mp ha
      exact ⟨_, _, rfl⟩
    · intro a ha
      obtain ⟨p, _, rfl⟩ := List.mem_map.mp ha
      exact ⟨_, _, _, rfl⟩

/-- C2 witness at a concrete two-timestep model. -/
theorem claim2_witness :
    ∃ out, add_storage_balance 2 (fun _ => "bel") (fun _ => ["bel"])
        [storageObjW] = .ok out ∧
      (∀ σ, (out.balance storageObjW.uid 0).holds σ ↔
        σ (Var.cap storageObjW.uid 0) = storageObjW.cap_initial
          + σ (Var.w ((fun _ => "bel") storageObjW.uid) storageObjW.uid 0)
            * storageObjW.eta_in
          - σ (Var.w storageObjW.uid "bel" 0) / storageObjW.eta_out) ∧
      (0 < 1 → ∀ σ, (out.balance storageObjW.uid 1).holds σ ↔
        σ (Var.cap storageObjW.uid 1) =
          σ (Var.cap storageObjW.uid (1 - 1)) * (1 - storageObjW.cap_loss)
          + σ (Var.w ((fun _ => "bel") storageObjW.uid) storageObjW.uid 1)
            * storageObjW.eta_in
          - σ (Var.w storageObjW.uid "bel" 1) / storageObjW.eta_out) ∧
      (∃ fix_part constr_part, out.actions = fix_part ++ constr_part ∧
        StorageAct.fix (Var.cap storageObjW.uid (2 - 1))
          storageObjW.cap_initial ∈ fix_part ∧
        (∀ a ∈ fix_part, ∃ v q, a = StorageAct.fix v q) ∧
        (∀ a ∈ constr_part, ∃ e' t' c, a = StorageAct.balance e' t' c)) :=
  claim2_storage_balance 2 (fun _ => "bel") (fun _ => ["bel"])
    [storageObjW] storageObjW "bel" [] (by simp) (by simp) rfl 1
    (by norm_num)

/-- C9: for a selected direction the gradient generator declares the
variable with bounds `[0, grad_max(e)]` and emits, for `t > 0`,
`W(e,out,t) - W(e,out,t-1) <= GRADPOS(e,t)` (symmetrically for the
negative direction), skips the instance at `t = 0`, and declares neither
the variable nor the family of an unselected direction. -/
theorem claim9_output_gradient (T : Nat) (O : Uid → List Uid)
    (objs : List GradObj) (gd : String) (e : GradObj) (o : Uid)
    (os : List Uid) (t : Nat)
    (he : e ∈ objs) (hnd : (objs.map fun g => g.uid).Nodup)
    (hO : O e.uid = o :: os) (ht : t < T) :
    ∃ out, add_output_gradient_calc T O objs gd = .ok out ∧
      ((gd = "positive" ∨ gd = "both") →
        ∃ fam, out.pos = some fam ∧
          fam.bounds e.uid t = (0, e.grad_pos) ∧
          fam.grad_calc e.uid 0 = none ∧
          (0 < t → ∃ c, fam.grad_calc e.uid t = some c ∧
            ∀ σ, c.holds σ ↔
              σ (Var.w e.uid o t) - σ (Var.w e.uid o (t - 1)) ≤
                σ (Var.grad_pos_var e.uid t))) ∧
      (¬(gd = "positive" ∨ gd = "both") → out.pos = none) ∧
      ((gd = "negative" ∨ gd = "both") →
        ∃ fam, out.neg = some fam ∧
          fam.bounds e.uid t = (0, e.grad_neg) ∧
          fam.grad_calc e.uid 0 = none ∧
          (0 < t → ∃ c, fam.grad_calc e.uid t = some c ∧
            ∀ σ, c.holds σ ↔
              σ (Var.w e.uid o (t - 1)) - σ (Var.w e.uid o t) ≤
                σ (Var.grad_neg_var e.uid t))) ∧
      (¬(gd = "negative" ∨ gd = "both") → out.neg = none) := by
  have hne : objs ≠ [] := List.ne_nil_of_mem he
  have hgp := pyGetD_pyDict_map objs (fun g => g.uid)
    (fun g => g.grad_pos) e he hnd
  have hgn := pyGetD_pyDict_map objs (fun g => g.uid)
    (fun g => g.grad_neg) e he hnd
  simp only [add_output_gradient_calc, isEmpty_false_of_ne_nil hne,
    Bool.false_eq_true, if_false]
  refine ⟨_, rfl, ?_, ?_, ?_, ?_⟩
  · intro hdir
    rw [if_pos hdir]
    refine ⟨_, rfl, ?_, rfl, ?_⟩
    · simp only [hgp]
    · intro ht0
      dsimp only
      rw [if_pos ht0]
      refine ⟨_, rfl, ?_⟩
      intro σ
      simp only [Constr.holds, AffExpr.eval, AffExpr.termsOf,
        AffExpr.ofVar, hO, List.getD_cons_zero, List.map_cons,
        List.map_nil, List.sum_cons, List.sum_nil]
      constructor <;> intro h <;> linarith
  · intro hdir
    rw [if_neg hdir]
  · intro hdir
    rw [if_pos hdir]
    refine ⟨_, rfl, ?_, rfl, ?_⟩
    · simp only [hgn]
    · intro ht0
      dsimp only
      rw [if_pos ht0]
      refine ⟨_, rfl, ?_⟩
      intro σ
      simp only [Constr.holds, AffExpr.eval, AffExpr.termsOf,
        AffExpr.ofVar, hO, List.getD_cons_zero, List.map_cons,
        List.map_nil, List.sum_cons, List.sum_nil]
      constructor <;> intro h <;> linarith
  · intro hdir
    rw [if_neg hdir]

/-- C9 witness at a concrete two-timestep model with both directions
selected. -/
theorem claim9_witness :
    ∃ out, add_output_gradient_calc 2 (fun _ => ["bel"]) [gradObjW]
        "both" = .ok out ∧
      (("both" = "positive" ∨ "both" = "both") →
        ∃ fam, out.pos = some fam ∧
          fam.bounds gradObjW.uid 1 = (0, gradObjW.grad_pos) ∧
          fam.grad_calc gradObjW.uid 0 = none ∧
          (0 < 1 → ∃ c, fam.grad_calc gradObjW.uid 1 = some c ∧
            ∀ σ, c.holds σ ↔
              σ (Var.w gradObjW.uid "bel" 1) -
                σ (Var.w gradObjW.uid "bel" (1 - 1)) ≤
                σ (Var.grad_pos_var gradObjW.uid 1))) ∧
      (¬("both" = "positive" ∨ "both" = "both") → out.pos = none) ∧
      (("both" = "negative" ∨ "both" = "both") →
        ∃ fam, out.neg = some fam ∧
          fam.bounds gradObjW.uid 1 = (0, gradObjW.grad_neg) ∧
          fam.grad_calc gradObjW.uid 0 = none ∧
          (0 < 1 → ∃ c, fam.grad_calc gradObjW.uid 1 = some c ∧
            ∀ σ, c.holds σ ↔
              σ (Var.w gradObjW.uid "bel" (1 - 1)) -
                σ (Var.w gradObjW.uid "bel" 1) ≤
                σ (Var.grad_neg_var gradObjW.uid 1))) ∧
      (¬("both" = "negative" ∨ "both" = "both") → out.neg = none) :=
  claim9_output_gradient 2 (fun _ => ["bel"]) [gradObjW] "both"
    gradObjW "bel" [] 1 (by simp) (by simp) rfl (by norm_num)

theorem mem_index_pairs (T : Nat) (uids : List Uid) (u : Uid) (t : Nat) :
    (u, t) ∈ index_pairs T uids ↔ u ∈ uids ∧ t < T := by
  simp only [index_pairs, List.mem_flatten, List.mem_map]
  constructor
  · rintro ⟨l, ⟨u', hu', rfl⟩, hl⟩
    obtain ⟨t', ht', heq⟩ := List.mem_map.mp hl
    obtain ⟨rfl, rfl⟩ := Prod.mk.injEq .. |>.mp heq
    exact ⟨hu', List.mem_range.mp ht'⟩
  · rintro ⟨hu, ht⟩
    exact ⟨(List.range T).map fun t' => (u, t'), ⟨u, hu, rfl⟩,
      List.mem_map_of_mem _ (List.mem_range.mpr ht)⟩

theorem mem_source_w_pairs (T : Nat) (omD : List (Uid × PyVal))
    (vD : List (Uid × (Nat → ℚ))) (ee : List (Uid × Uid))
    (u b : Uid) (t : Nat) (hp : (u, b) ∈ ee) (ht : t < T) :
    (Var.w u b t, val_times_out_max0 omD vD u t) ∈
      source_w_pairs T omD vD ee := by
  simp only [source_w_pairs, List.mem_flatten, List.mem_map]
  exact ⟨(List.range T).map fun t' =>
    (Var.w u b t', val_times_out_max0 omD vD u t'),
    ⟨(u, b), hp, rfl⟩, List.mem_map_of_mem _ (List.mem_range.mpr ht)⟩

theorem source_w_pairs_all_isSome (T : Nat) (omD : List (Uid × PyVal))
    (vD : List (Uid × (Nat → ℚ))) (ee : List (Uid × Uid))
    (h : ∀ p ∈ ee, (((pyGetD omD p.1).getNat 0).bind PyVal.asNum).isSome) :
    ((source_w_pairs T omD vD ee).all fun x => x.2.isSome) = true := by
  rw [List.all_eq_true]
  intro x hx
  simp only [source_w_pairs, List.mem_flatten, List.mem_map] at hx
  obtain ⟨l, ⟨p, hp, rfl⟩, hxl⟩ := hx
  obtain ⟨t', ht', rfl⟩ := List.mem_map.mp hxl
  obtain ⟨qv, hqv⟩ := Option.isSome_iff_exists.mp (h p hp)
  simp [val_times_out_max0, hqv]

theorem index_pairs_all (T : Nat) (uids : List Uid) (f : Uid → Nat → Bool)
    (h : ∀ u ∈ uids, ∀ t, t < T → f u t = true) :
    ((index_pairs T uids).all fun p => f p.1 p.2) = true := by
  rw [List.all_eq_true]
  intro p hp
  obtain ⟨p1, p2⟩ := p
  obtain ⟨hu, ht⟩ := (mem_index_pairs T uids p1 p2).mp hp
  exact h p1 hu p2 ht

/-- C6: in non-investment mode the fixed source generator fixes the flow
variable of every output edge and timestep to
`normalized_value(e,t) * rated_capacity(e)` (with
`rated_capacity(e) = out_max[e][0]`), and adds no investment bound and
no equality constraint. -/
theorem claim6_fixed_source (T : Nat) (O : Uid → List Uid)
    (objs : List FixedSourceObj) (e : FixedSourceObj) (b : Uid) (t : Nat)
    (q : ℚ)
    (he : e ∈ objs) (hnd : (objs.map fun s => s.uid).Nodup)
    (hall : ∀ s ∈ objs, ∃ qs, s.out_max.getNat 0 = some (PyVal.num qs))
    (hb : b ∈ e.outputs) (ht : t < T)
    (hq : e.out_max.getNat 0 = some (PyVal.num q)) :
    ∃ out, add_fixed_source T O false objs = .ok out ∧
      (Var.w e.uid b t, e.val t * q) ∈ out.fixes ∧
      out.add_out_ub = [] ∧ out.invest = [] := by
  have hne : objs ≠ [] := List.ne_nil_of_mem he
  have hom := pyGetD_pyDict_map objs (fun s => s.uid)
    (fun s => s.out_max) e he hnd
  have hval := pyGetD_pyDict_map objs (fun s => s.uid)
    (fun s => s.val) e he hnd
  have hgate := source_w_pairs_all_isSome T
    (pyDict (objs.map fun o => (o.uid, o.out_max)))
    (pyDict (objs.map fun o => (o.uid, o.val)))
    (edges (fun o => o.uid) (fun o => o.outputs) objs)
    (by
      intro p hp
      obtain ⟨o, ho, huid, _⟩ := (mem_edges _ _ _ _).mp hp
      have homo := pyGetD_pyDict_map objs (fun s => s.uid)
        (fun s => s.out_max) o ho hnd
      obtain ⟨qo, hqo⟩ := hall o ho
      rw [← huid, homo]
      simp [hqo, PyVal.asNum])
  simp only [add_fixed_source, isEmpty_false_of_ne_nil hne,
    Bool.false_eq_true, if_false, Bool.not_false, if_true]
  rw [if_pos hgate]
  refine ⟨_, rfl, ?_, rfl, rfl⟩
  have hv : val_times_out_max0
      (pyDict (objs.map fun o => (o.uid, o.out_max)))
      (pyDict (objs.map fun o => (o.uid, o.val))) e.uid t =
      some (e.val t * q) := by
    simp [val_times_out_max0, hom, hval, hq, PyVal.asNum]
  have hmem := mem_source_w_pairs T
    (pyDict (objs.map fun o => (o.uid, o.out_max)))
    (pyDict (objs.map fun o => (o.uid, o.val)))
    (edges (fun o => o.uid) (fun o => o.outputs) objs) e.uid b t
    ((mem_edges _ _ _ _).mpr ⟨e, he, rfl, hb⟩) ht
  have := List.mem_map_of_mem (fun x => (x.1, x.2.getD 0)) hmem
  simpa [hv] using this

/-- C6 witness: the wind entity of the example script at one timestep. -/
theorem claim6_witness :
    ∃ out, add_fixed_source 1 (fun _ => ["bel"]) false [windObj] =
        .ok out ∧
      (Var.w windObj.uid "bel" 0, windObj.val 0 * 1000000) ∈ out.fixes ∧
      out.add_out_ub = [] ∧ out.invest = [] :=
  claim6_fixed_source 1 (fun _ => ["bel"]) [windObj] windObj "bel" 0
    1000000 (by simp) (by simp)
    (by
      intro s hs
      rw [List.mem_singleton] at hs
      subst hs
      exact ⟨1000000, rfl⟩)
    (by simp [windObj]) (by norm_num) rfl

/-- C8: the dispatch source generator bounds the flow of every output
edge by `val * out_max[0]`, declares the curtailment variable over the
index set (non-negative by its declared domain), and the curtailment
equality forces `CURTAIL(e,t) = val*out_max[0] - W(e,out,t)`, hence
`CURTAIL(e,t) + W(e,out,t) = val*out_max[0]` in any solution, with
`CURTAIL(e,t) >= 0`. -/
theorem claim8_dispatch_source (T : Nat) (O : Uid → List Uid)
    (objs : List DispatchObj) (e : DispatchObj) (b o : Uid)
    (os : List Uid) (t : Nat) (q : ℚ)
    (he : e ∈ objs) (hnd : (objs.map fun s => s.uid).Nodup)
    (hall : ∀ s ∈ objs, ∃ qs, s.out_max.getNat 0 = some (PyVal.num qs))
    (hq : e.out_max.getNat 0 = some (PyVal.num q))
    (hb : b ∈ e.outputs) (hO : O e.uid = o :: os) (ht : t < T) :
    ∃ out, add_dispatch_source T O objs = .ok out ∧
      (Var.w e.uid b t, e.val t * q) ∈ out.ub_actions ∧
      (e.uid, t) ∈ out.curtailment_index ∧
      (∀ σ, (out.curtailment e.uid t).holds σ ↔
        σ (Var.curtailment_var e.uid t) =
          e.val t * q - σ (Var.w e.uid o t)) ∧
      (∀ σ, (out.curtailment e.uid t).holds σ →
        σ (Var.curtailment_var e.uid t) + σ (Var.w e.uid o t) =
          e.val t * q) ∧
      (∀ σ, DispatchOut.domainOk out σ →
        0 ≤ σ (Var.curtailment_var e.uid t)) := by
  have hne : objs ≠ [] := List.ne_nil_of_mem he
  have hom := pyGetD_pyDict_map objs (fun s => s.uid)
    (fun s => s.out_max) e he hnd
  have hval := pyGetD_pyDict_map objs (fun s => s.uid)
    (fun s => s.val) e he hnd
  have hidx : (e.uid, t) ∈ index_pairs T (objs.map fun s => s.uid) :=
    (mem_index_pairs _ _ _ _).mpr ⟨List.mem_map_of_mem _ he, ht⟩
  have hgate1 := source_w_pairs_all_isSome T
    (pyDict (objs.map fun s => (s.uid, s.out_max)))
    (pyDict (objs.map fun s => (s.uid, s.val)))
    (edges (fun s => s.uid) (fun s => s.outputs) objs)
    (by
      intro p hp
      obtain ⟨so, hso, huid, _⟩ := (mem_edges _ _ _ _).mp hp
      have homo := pyGetD_pyDict_map objs (fun s => s.uid)
        (fun s => s.out_max) so hso hnd
      obtain ⟨qo, hqo⟩ := hall so hso
      rw [← huid, homo]
      simp [hqo, PyVal.asNum])
  have hgate2 := index_pairs_all T (objs.map fun s => s.uid)
    (fun u t' => (dispatch_curtailment_rule
      (pyDict (objs.map fun s => (s.uid, s.out_max)))
      (pyDict (objs.map fun s => (s.uid, s.val))) O u t').isSome)
    (by
      intro u hu t' ht'
      obtain ⟨so, hso, rfl⟩ := List.mem_map.mp hu
      have homo := pyGetD_pyDict_map objs (fun s => s.uid)
        (fun s => s.out_max) so hso hnd
      obtain ⟨qo, hqo⟩ := hall so hso
      simp [dispatch_curtailment_rule, homo, hqo, PyVal.asNum])
  have hrule : dispatch_curtailment_rule
      (pyDict (objs.map fun s => (s.uid, s.out_max)))
      (pyDict (objs.map fun s => (s.uid, s.val))) O e.uid t =
      some (Constr.eq (AffExpr.ofVar (Var.curtailment_var e.uid t))
        ⟨[(-1, Var.w e.uid o t)], e.val t * q⟩) := by
    simp [dispatch_curtailment_rule, hom, hval, hq, PyVal.asNum, hO]
  simp only [add_dispatch_source, isEmpty_false_of_ne_nil hne,
    Bool.false_eq_true, if_false]
  rw [if_pos (by rw [Bool.and_eq_true]; exact ⟨hgate1, hgate2⟩)]
  refine ⟨_, rfl, ?_, hidx, ?_, ?_, ?_⟩
  · have hv : val_times_out_max0
        (pyDict (objs.map fun s => (s.uid, s.out_max)))
        (pyDict (objs.map fun s => (s.uid, s.val))) e.uid t =
        some (e.val t * q) := by
      simp [val_times_out_max0, hom, hval, hq, PyVal.asNum]
    have hmem := mem_source_w_pairs T
      (pyDict (objs.map fun s => (s.uid, s.out_max)))
      (pyDict (objs.map fun s => (s.uid, s.val)))
      (edges (fun s => s.uid) (fun s => s.outputs) objs) e.uid b t
      ((mem_edges _ _ _ _).mpr ⟨e, he, rfl, hb⟩) ht
    have := List.mem_map_of_mem (fun x => (x.1, x.2.getD 0)) hmem
    simpa [hv] using this
  · intro σ
    simp only [hrule, Option.getD_some, Constr.holds, AffExpr.eval,
      AffExpr.ofVar, List.map_cons, List.map_nil, List.sum_cons,
      List.sum_nil]
    constructor <;> intro h <;> linarith
  · intro σ hσ
    simp only [hrule, Option.getD_some, Constr.holds, AffExpr.eval,
      AffExpr.ofVar, List.map_cons, List.map_nil, List.sum_cons,
      List.sum_nil] at hσ
    linarith
  · intro σ hdom
    exact hdom (e.uid, t) hidx

/-- C8 witness: a pv-like dispatchable source at one timestep. -/
theorem claim8_witness :
    ∃ out, add_dispatch_source 1 (fun _ => ["bel"]) [pvObj] = .ok out ∧
      (Var.w pvObj.uid "bel" 0, pvObj.val 0 * 582000) ∈ out.ub_actions ∧
      (pvObj.uid, 0) ∈ out.curtailment_index ∧
      (∀ σ, (out.curtailment pvObj.uid 0).holds σ ↔
        σ (Var.curtailment_var pvObj.uid 0) =
          pvObj.val 0 * 582000 - σ (Var.w pvObj.uid "bel" 0)) ∧
      (∀ σ, (out.curtailment pvObj.uid 0).holds σ →
        σ (Var.curtailment_var pvObj.uid 0) + σ (Var.w pvObj.uid "bel" 0) =
          pvObj.val 0 * 582000) ∧
      (∀ σ, DispatchOut.domainOk out σ →
        0 ≤ σ (Var.curtailment_var pvObj.uid 0)) :=
  claim8_dispatch_source 1 (fun _ => ["bel"]) [pvObj] pvObj "bel" "bel"
    [] 0 582000 (by simp) (by simp)
    (by
      intro s hs
      rw [List.mem_singleton] at hs
      subst hs
      exact ⟨582000, rfl⟩)
    rfl (by simp [pvObj]) rfl (by norm_num)

theorem eval_if_add_slack (σ : Var → ℚ) (c : Prop) [Decidable c]
    (X : AffExpr) (v : Var) :
    (if c then X.add (AffExpr.ofVar v) else X).eval σ =
      X.eval σ + (if c then σ v else 0) := by
  by_cases h : c <;> simp [h, AffExpr.eval_add, AffExpr.eval_ofVar]

/-- C1: for every bus with `balanced = true` and every timestep, the
emitted balance constraint is exactly: non-transport inflows plus
transport inflows weighted by the transport efficiency plus the shortage
slack (when the bus allows shortage) equal non-transport outflows plus
transport outflows plus the excess slack (when the bus allows excess). -/
theorem claim1_bus_balance (T : Nat) (transports : List Transport)
    (objs : List BusObj) (ex sh : List Uid) (b : BusObj) (t : Nat)
    (hb : b ∈ objs) (hbal : b.balanced = true)
    (hndb : (objs.map fun o => o.uid).Nodup)
    (hndt : (transports.map fun tr => (tr.input0, tr.output0)).Nodup)
    (ht : t < T) :
    ∃ out, add_bus_balance T transports objs ex sh = .ok out ∧
      b.uid ∈ out.balance_index ∧
      ∀ σ, (out.balance b.uid t).holds σ ↔
        ((b.inputs.filter fun p => !p.2).map fun p =>
            σ (Var.w p.1 b.uid t)).sum
        + ((transports.filter fun tr =>
            decide (tr.output0 = b.uid)).map fun tr =>
            tr.eta0 * σ (Var.w tr.input0 b.uid t)).sum
        + (if b.uid ∈ sh then σ (Var.shortage_slack b.uid t) else 0)
        = ((b.outputs.filter fun p => !p.2).map fun p =>
            σ (Var.w b.uid p.1 t)).sum
        + ((transports.filter fun tr =>
            decide (tr.input0 = b.uid)).map fun tr =>
            σ (Var.w b.uid tr.output0 t)).sum
        + (if b.uid ∈ ex then σ (Var.excess_slack b.uid t) else 0) := by
  have hne : objs ≠ [] := List.ne_nil_of_mem hb
  have hbmem : b ∈ objs.filter fun o => o.balanced :=
    List.mem_filter.mpr ⟨hb, hbal⟩
  have hndf : ((objs.filter fun o => o.balanced).map fun o => o.uid).Nodup :=
    List.Nodup.sublist
      ((List.filter_sublist objs).map fun o => o.uid) hndb
  have hI := pyGetD_pyDict_map (objs.filter fun o => o.balanced)
    (fun o => o.uid)
    (fun o => (o.inputs.filter fun p => !p.2).map Prod.fst) b hbmem hndf
  have hOd := pyGetD_pyDict_map (objs.filter fun o => o.balanced)
    (fun o => o.uid)
    (fun o => (o.outputs.filter fun p => !p.2).map Prod.fst) b hbmem hndf
  have hetas : pyDict (transports.map fun tr =>
      ((tr.input0, tr.output0), tr.eta0)) =
      transports.map fun tr => ((tr.input0, tr.output0), tr.eta0) :=
    pyDict_eq_self _ (by
      simpa [List.map_map, Function.comp_def] using hndt)
  simp only [add_bus_balance, isEmpty_false_of_ne_nil hne,
    Bool.false_eq_true, if_false]
  refine ⟨_, rfl, List.mem_map_of_mem _ hbmem, ?_⟩
  intro σ
  dsimp only
  simp only [hetas, hI, hOd, Constr.holds]
  rw [eval_if_add_slack, eval_if_add_slack]
  simp only [AffExpr.eval_add, AffExpr.eval_termsOf, filter_of_map,
    List.map_map, Function.comp_def, one_mul]

/-- C1 witness at a concrete one-timestep model with a transport link
into the balanced bus. -/
theorem claim1_witness :
    ∃ out, add_bus_balance 1 [transportC1] [busC1] ["b2"] [] = .ok out ∧
      busC1.uid ∈ out.balance_index ∧
      ∀ σ, (out.balance busC1.uid 0).holds σ ↔
        ((busC1.inputs.filter fun p => !p.2).map fun p =>
            σ (Var.w p.1 busC1.uid 0)).sum
        + (([transportC1].filter fun tr =>
            decide (tr.output0 = busC1.uid)).map fun tr =>
            tr.eta0 * σ (Var.w tr.input0 busC1.uid 0)).sum
        + (if busC1.uid ∈ ([] : List Uid) then
            σ (Var.shortage_slack busC1.uid 0) else 0)
        = ((busC1.outputs.filter fun p => !p.2).map fun p =>
            σ (Var.w busC1.uid p.1 0)).sum
        + (([transportC1].filter fun tr =>
            decide (tr.input0 = busC1.uid)).map fun tr =>
            σ (Var.w busC1.uid tr.output0 0)).sum
        + (if busC1.uid ∈ ["b2"] then
            σ (Var.excess_slack busC1.uid 0) else 0) :=
  claim1_bus_balance 1 [transportC1] [busC1] ["b2"] [] busC1 0
    (by simp) rfl (by simp) (by simp) (by norm_num)

end Oemof
